import Mathlib

/-!
Verification of the koreakimtest repository's documented behavior against a
shallow Lean embedding of its TypeScript/JavaScript sources.

Conventions used throughout:
* JavaScript numbers are modelled as exact rationals (`ℚ`); `Math.round` is
  Mathlib's `round` (both compute `⌊x + 1/2⌋`).
* JavaScript strings are Lean `String`s; `String.prototype.includes` is
  substring (infix) search on the underlying character lists, and
  `toLowerCase` maps `Char.toLower` over the characters.
* Handlers that return formatted text are embedded as functions returning a
  structured result whose fields are exactly the numbers interpolated into
  the text; distinct validation-error messages become distinct constructors.
-/

/- ------------------------------------------------------------------ -/
/- anthropic-cost-tracker/nodejs/immediate-cost-estimate.ts           -/
/- ------------------------------------------------------------------ -/

/-- Price table `PRICES` from `immediate-cost-estimate.ts` (USD per 1M
tokens), entry order and values as in the source. -/
def PRICES : List (String × ℚ × ℚ) := [
  ("claude-3-5-sonnet-latest", 3.0, 15.0),
  ("claude-3-5-sonnet-20241022", 3.0, 15.0),
  ("claude-3-5-haiku-latest", 0.25, 1.25),
  ("claude-3-5-haiku-20241022", 0.25, 1.25),
  ("claude-3-opus-latest", 15.0, 75.0),
  ("claude-3-opus-20240229", 15.0, 75.0),
  ("claude-3-sonnet-20240229", 3.0, 15.0),
  ("claude-3-haiku-20240307", 0.25, 1.25)]

/-- `estimateCostUSD(model, inputTokens, outputTokens)` from
`immediate-cost-estimate.ts`: unknown model logs a warning and returns 0,
otherwise `inputTokens * (in/1e6) + outputTokens * (out/1e6)`. -/
def estimateCostUSD (model : String) (inputTokens outputTokens : ℚ) : ℚ :=
  match List.lookup model PRICES with
  | none => 0
  | some price =>
    inputTokens * (price.1 / 1000000) + outputTokens * (price.2 / 1000000)

/- ------------------------------------------------------------------ -/
/- money-mcp/index.js: vat_calculator and retirement_pay handlers     -/
/- ------------------------------------------------------------------ -/

/-- Validation failures of the `vat_calculator` handler, one constructor per
distinct error message in the source. -/
inductive VatError
  | badType
  | badAmount
deriving DecidableEq

/-- Result of the `vat_calculator` handler: either an error message or the
numeric fields (supply, vat, total) rendered into the reply text. -/
inductive VatResult
  | err (e : VatError)
  | ok (supply vat total : ℚ)
deriving DecidableEq

/-- `vat_calculator` handler from `money-mcp/index.js` (lines 489-517).
`amount == null` is modelled by `none`. -/
def vat_calculator (ty : String) (amount : Option ℚ) : VatResult :=
  if ¬ (ty = "supply" ∨ ty = "total") then .err .badType
  else
    match amount with
    | none => .err .badAmount
    | some a =>
      if a ≤ 0 then .err .badAmount
      else if ty = "supply" then .ok a (a * 0.1) (a + a * 0.1)
      else .ok ((round (a / 1.1) : ℤ) : ℚ) (a - ((round (a / 1.1) : ℤ) : ℚ)) a

/-- Result of the `retirement_pay` handler: the two validation errors, the
informational not-eligible message (with its interpolated day count), or the
computed payout fields. -/
inductive RetirementResult
  | errSalary
  | errYears
  | notEligible (totalDays : ℚ)
  | paid (totalDays dailyWage pay : ℚ)

/-- `retirement_pay` handler from `money-mcp/index.js` (lines 596-626):
`totalDays = years*365 + Math.round(months*30.44)`; below 365 days the
handler returns the explanatory not-eligible text (a normal reply, not a
thrown error); otherwise pay `= (salary/30*30) * (totalDays/365)`. -/
def retirement_pay (avg_monthly_salary years months : Option ℚ) :
    RetirementResult :=
  let extraMonths := months.getD 0
  match avg_monthly_salary with
  | none => .errSalary
  | some a =>
    if a ≤ 0 then .errSalary
    else
      match years with
      | none => .errYears
      | some y =>
        if y < 0 then .errYears
        else
          let totalDays : ℚ := y * 365 + ((round (extraMonths * 30.44) : ℤ) : ℚ)
          if totalDays < 365 then .notEligible totalDays
          else .paid totalDays (a / 30) ((a / 30 * 30) * (totalDays / 365))

/- ------------------------------------------------------------------ -/
/- JS string primitives used by the MCP configuration utilities       -/
/- ------------------------------------------------------------------ -/

/-- JS `String.prototype.includes`: substring (infix) search. -/
def strContains (s pat : String) : Bool := decide (pat.data <:+: s.data)

/-- JS `String.prototype.endsWith`: suffix test. -/
def strEndsWith (s pat : String) : Bool := decide (pat.data <:+ s.data)

/-- JS `String.prototype.toLowerCase`, character by character. -/
def strToLower (s : String) : String := ⟨s.data.map Char.toLower⟩

/-- JS `Array.prototype.join(" ")`. -/
def joinSpace : List String → String
  | [] => ""
  | [x] => x
  | x :: xs => x ++ " " ++ joinSpace xs

/- ------------------------------------------------------------------ -/
/- src/utils/secureMcpLoader.ts and the MCP registry manager          -/
/- ------------------------------------------------------------------ -/

/-- `MCPServer` interface shared by `secureMcpLoader.ts` and the registry
manager: launch command, argument list, optional environment block.  JSON
objects are modelled as association lists preserving key order. -/
structure MCPServer where
  command : String
  args : List String
  env : Option (List (String × String))
deriving DecidableEq

/-- `MCPConfig` interface: named servers, order preserved. -/
structure MCPConfig where
  mcpServers : List (String × MCPServer)
deriving DecidableEq

/-- Redaction marker used by `sanitizeMCPConfig`. -/
def REDACTED : String := "[REDACTED]"

/-- Argument masking inside `sanitizeMCPConfig` (secureMcpLoader.ts lines
89-99): an argument is replaced when it contains "api", "token" or "key"
(case-sensitive; the source does not lower-case arguments and does not
check "secret" here). -/
def sanitizeArg (arg : String) : String :=
  if strContains arg "api" || strContains arg "token" || strContains arg "key"
  then REDACTED else arg

/-- Environment-entry masking inside `sanitizeMCPConfig` (lines 100-115):
the value is replaced when the lower-cased variable name contains "key",
"token" or "secret" (the source does not check "api" for env names). -/
def sanitizeEnvEntry (kv : String × String) : String × String :=
  (kv.1,
   if strContains (strToLower kv.1) "key" ||
      strContains (strToLower kv.1) "token" ||
      strContains (strToLower kv.1) "secret"
   then REDACTED else kv.2)

/-- Per-server part of `sanitizeMCPConfig`.  The TS spreads the original
env object and then the mapped entries; the mapped object has exactly the
original keys in the original order, so the spread result is the mapped
entry list. -/
def sanitizeServer (server : MCPServer) : MCPServer :=
  ⟨server.command, server.args.map sanitizeArg,
   server.env.map (fun e => e.map sanitizeEnvEntry)⟩

/-- `sanitizeMCPConfig` from `secureMcpLoader.ts` (lines 83-120). -/
def sanitizeMCPConfig (config : MCPConfig) : MCPConfig :=
  ⟨config.mcpServers.map (fun p => (p.1, sanitizeServer p.2))⟩

/-- Server classification produced by `detectServerType`. -/
inductive ServerType
  | npm
  | python
  | java
  | other
deriving DecidableEq

/-- `detectServerType` from the MCP registry manager
(src/unnamed/part_007, lines 90-104): lower-cases the command and the
space-joined argument list, then tests substrings in order. -/
def detectServerType (server : MCPServer) : ServerType :=
  let cmd := strToLower server.command
  let args := strToLower (joinSpace server.args)
  if strContains cmd "npx" || strContains cmd "node" || strContains args "npx"
  then .npm
  else if strContains cmd "python" || strContains args ".py" then .python
  else if strContains cmd "java" || strContains args ".jar" then .java
  else .other

/-- Concrete configuration exercising the two redaction rules the spec
claims but the source does not implement: an argument containing "secret"
and an environment variable whose name contains "api". -/
def cfgSecretApi : MCPConfig :=
  ⟨[("demo", ⟨"run", ["secret"], some [("API_URL", "http://x")]⟩)]⟩

/-- Concrete configuration with one redacted and one plain argument and
one redacted and one plain environment value. -/
def cfgMixed : MCPConfig :=
  ⟨[("s", ⟨"node", ["--api-key", "plain"],
      some [("GITHUB_TOKEN", "t"), ("HOME", "h")]⟩)]⟩

/-- Concrete configuration used to exhibit the frame property of
`sanitizeMCPConfig`. -/
def cfgFrame : MCPConfig :=
  ⟨[("w", ⟨"node", ["token-arg", "safe"],
      some [("MY_SECRET", "v"), ("PATH", "p")]⟩)]⟩

/-- Registry entry launching an npm package runner with a scoped package
argument. -/
def srvNpx : MCPServer :=
  ⟨"npx", ["-y", "@modelcontextprotocol/server-filesystem"], none⟩

/-- Registry entry launching a Python script. -/
def srvPy : MCPServer := ⟨"python", ["server.py"], none⟩

/- ------------------------------------------------------------------ -/
/- src/utils/fetchAnthropicUsage.ts                                   -/
/- ------------------------------------------------------------------ -/

/-- Outcome of `fetchAnthropicUsage` up to the point where the HTTPS
request would be issued: one constructor per validation error thrown
before any request, or the request itself with the validated
epoch-millisecond bounds. -/
inductive UsageFetch
  | errNoKey
  | errInvalidStart (s : String)
  | errInvalidEnd (s : String)
  | errStartAfterEnd
  | request (startMs endMs : ℤ)
deriving DecidableEq

/-- `fetchAnthropicUsage` from `fetchAnthropicUsage.ts` (lines 37-79),
embedded up to the network call.  `new Date(string)` is a JS builtin
external to the repository and is passed in as `parseDate`, returning
epoch milliseconds or `none` when the string is unparseable (`NaN` time).
The source checks, in order: presence of an API key, parseability of the
start then the end timestamp, and finally `startDate > endDate`. -/
def fetchAnthropicUsage (parseDate : String → Option ℤ)
    (startingAt endingAt : String) (apiKey : Option String) : UsageFetch :=
  match apiKey with
  | none => .errNoKey
  | some _ =>
    match parseDate startingAt with
    | none => .errInvalidStart startingAt
    | some s =>
      match parseDate endingAt with
      | none => .errInvalidEnd endingAt
      | some e => if s > e then .errStartAfterEnd else .request s e

/-- Toy date parser used to instantiate witnesses: "A" is epoch 1, "B" is
epoch 5, everything else is unparseable. -/
def parseDateToy : String → Option ℤ := fun s =>
  if s = "A" then some 1 else if s = "B" then some 5 else none

/- ------------------------------------------------------------------ -/
/- Auto-update subsystem (second module bundled in                    -/
/- src/src/utils/encryption.ts)                                       -/
/- ------------------------------------------------------------------ -/

/-- `UpdateConfig` interface: enabled flag, check interval in hours,
auto-install flag, notify-only flag. -/
structure UpdateConfig where
  enabled : Bool
  checkInterval : ℚ
  autoInstall : Bool
  notifyOnly : Bool

/-- `DEFAULT_CONFIG` of the auto-update module: enabled, 24-hour
interval, no auto-install, notify only. -/
def DEFAULT_CONFIG : UpdateConfig := ⟨true, 24, false, true⟩

/-- `VersionInfo` produced by `checkForUpdates`, whose npm registry call
is external; the answer is supplied as an oracle argument. -/
structure VersionInfo where
  current : String
  latest : String
  updateAvailable : Bool

/-- Visible outcome of one `runAutoUpdate` call. -/
inductive AutoUpdateOutcome
  | disabled
  | skippedRecent
  | checked (info : VersionInfo)

/-- Number of registry version lookups an outcome performed: one when the
check ran, zero otherwise. -/
def registryLookups : AutoUpdateOutcome → ℕ
  | .checked _ => 1
  | _ => 0

/-- `shouldCheckForUpdates` (auto-update module, lines 386-405): false
when disabled; true when the last-check file is absent or unreadable;
otherwise true iff at least `checkInterval` hours, converted to
milliseconds, elapsed since the recorded epoch-millisecond check time. -/
def shouldCheckForUpdates (config : UpdateConfig)
    (lastCheckFile : Option ℤ) (now : ℤ) : Bool :=
  if !config.enabled then false
  else
    match lastCheckFile with
    | none => true
    | some lastCheck =>
      decide ((now - lastCheck : ℚ) ≥ config.checkInterval * 60 * 60 * 1000)

/-- `runAutoUpdate` (lines 421-474), with the file-persisted last-check
timestamp as explicit state (first component of the result) and the
registry answer as an oracle argument: when enabled and due it performs
the registry lookup and records `now`; otherwise it reports why it did
nothing.  The auto-install branch only affects logging and installation
after the lookup, not the recorded state or the lookup count. -/
def runAutoUpdate (config : UpdateConfig) (lastCheckFile : Option ℤ)
    (now : ℤ) (registry : VersionInfo) : Option ℤ × AutoUpdateOutcome :=
  if !config.enabled then (lastCheckFile, .disabled)
  else if !(shouldCheckForUpdates config lastCheckFile now) then
    (lastCheckFile, .skippedRecent)
  else (some now, .checked registry)

/- ------------------------------------------------------------------ -/
/- src/utils/encryption.ts (AES-256-GCM envelope)                     -/
/- ------------------------------------------------------------------ -/

/-- Modelled from the spec: node's PBKDF2 (`deriveKey`, encryption.ts
lines 17-19) is an ideal key-derivation function — distinct passwords or
salts yield distinct keys — modelled by a key that records its inputs. -/
structure DerivedKey where
  password : String
  salt : ℕ
deriving DecidableEq

/-- `deriveKey(password, salt)` under the ideal-KDF model. -/
def deriveKey (password : String) (salt : ℕ) : DerivedKey :=
  ⟨password, salt⟩

/-- Modelled from the spec: an AES-256-GCM ciphertext as produced by an
ideal authenticated cipher — it determines the plaintext for the holder of
the key it was produced under and is opaque otherwise.  Random byte
strings (salts, IVs) are numbered tokens. -/
structure CipherText (α : Type) where
  payload : α
  key : DerivedKey
  iv : ℕ

/-- Modelled from the spec: the GCM authentication tag binds the key and
IV of the encryption. -/
structure AuthTag where
  key : DerivedKey
  iv : ℕ
deriving DecidableEq

/-- Record returned by `encrypt` (encryption.ts lines 50-55). -/
structure EncryptResult (α : Type) where
  encrypted : CipherText α
  salt : ℕ
  iv : ℕ
  authTag : AuthTag

/-- The single failure mode of GCM decryption: authentication failure
(wrong key or tampered data are indistinguishable). -/
inductive CryptoError
  | authenticationFailed
deriving DecidableEq

/-- `encrypt` (encryption.ts lines 24-56): the random salt and IV from
`crypto.randomBytes` are external nondeterminism and are taken as
arguments; the key is derived from the password and salt, and the data is
sealed under that key and IV with its tag. -/
def encrypt {α : Type} (data : α) (password : String) (salt iv : ℕ) :
    EncryptResult α :=
  let key := deriveKey password salt
  ⟨⟨data, key, iv⟩, salt, iv, ⟨key, iv⟩⟩

/-- `decrypt` (encryption.ts lines 61-86): re-derives the key from the
supplied password and salt, sets the auth tag, and under the ideal-cipher
model recovers the payload exactly when the ciphertext was produced under
that key and the tag binds that key and IV; otherwise GCM authentication
fails. -/
def decrypt {α : Type} (encrypted : CipherText α) (password : String)
    (salt iv : ℕ) (authTag : AuthTag) : Except CryptoError α :=
  let key := deriveKey password salt
  if encrypted.key = key ∧ authTag = ⟨key, iv⟩ then .ok encrypted.payload
  else .error .authenticationFailed

/-- JSON-serializable values (the `any` accepted by `encryptJSON`):
numbers as exact rationals, objects as ordered association lists. -/
inductive Json
  | null
  | bool (b : Bool)
  | num (q : ℚ)
  | str (s : String)
  | arr (elems : List Json)
  | obj (fields : List (String × Json))

/-- `ALGORITHM` constant of encryption.ts. -/
def ALGORITHM : String := "aes-256-gcm"

/-- Encryption envelope handled by `encryptJSON`/`decryptJSON` after the
outer `JSON.parse`: version and algorithm markers plus the `encrypt`
fields.  Stringify/parse of the envelope record itself is the identity. -/
structure EncryptedEnvelope where
  version : String
  algorithm : String
  encrypted : CipherText Json
  salt : ℕ
  iv : ℕ
  authTag : AuthTag

/-- `encryptJSON` (encryption.ts lines 92-105): serializes the value,
encrypts the serialization, and wraps it with the version and algorithm
markers.  Modelled from the spec: `JSON.stringify` is an injective
encoding of JSON-serializable values with `JSON.parse` as its left
inverse, so the serialized plaintext is represented by the value it
encodes. -/
def encryptJSON (data : Json) (password : String) (salt iv : ℕ) :
    EncryptedEnvelope :=
  let e := encrypt data password salt iv
  ⟨"1.0", ALGORITHM, e.encrypted, e.salt, e.iv, e.authTag⟩

/-- Failure modes of `decryptJSON`, one per thrown error. -/
inductive DecryptJSONError
  | unsupportedVersion (v : String)
  | unsupportedAlgorithm (a : String)
  | integrityError
deriving DecidableEq

/-- `decryptJSON` (encryption.ts lines 111-131): rejects an envelope
version other than "1.0", then an algorithm other than "aes-256-gcm",
and only then decrypts and parses; a GCM authentication failure surfaces
as the integrity error. -/
def decryptJSON (envelope : EncryptedEnvelope) (password : String) :
    Except DecryptJSONError Json :=
  if envelope.version ≠ "1.0" then
    .error (.unsupportedVersion envelope.version)
  else if envelope.algorithm ≠ ALGORITHM then
    .error (.unsupportedAlgorithm envelope.algorithm)
  else
    match decrypt envelope.encrypted password envelope.salt envelope.iv
        envelope.authTag with
    | .error _ => .error .integrityError
    | .ok data => .ok data

/-- Recognizes an unsupported-format rejection of `decryptJSON` (as
opposed to a decryption attempt or its failure). -/
def isUnsupportedFormat : Except DecryptJSONError Json → Bool
  | .error (.unsupportedVersion _) => true
  | .error (.unsupportedAlgorithm _) => true
  | _ => false

/-- Envelope carrying an unknown version marker. -/
def envBadVersion : EncryptedEnvelope :=
  ⟨"2.0", ALGORITHM, ⟨.null, ⟨"p", 0⟩, 0⟩, 0, 0, ⟨⟨"p", 0⟩, 0⟩⟩

/- ================================================================== -/
/- Theorems                                                           -/
/- ================================================================== -/

/-- C2: `estimateCostUSD "claude-3-5-sonnet-latest" 1000 500` is exactly
0.0105 USD, and for every model name absent from the price table the
estimator returns 0 for all token counts (it is a total function, so it
never throws). -/
theorem estimateCostUSD_sonnet_and_unknown :
    estimateCostUSD "claude-3-5-sonnet-latest" 1000 500 = 0.0105 ∧
    ∀ model, List.lookup model PRICES = none →
      ∀ i o : ℚ, estimateCostUSD model i o = 0 := by
  constructor
  · have hl : List.lookup "claude-3-5-sonnet-latest" PRICES =
        some (3.0, 15.0) := by rfl
    simp only [estimateCostUSD, hl]
    norm_num
  · intro model h i o
    simp [estimateCostUSD, h]

/-- Witness for C2 at the concrete unknown model name "gpt-4o". -/
theorem estimateCostUSD_sonnet_and_unknown_witness :
    estimateCostUSD "claude-3-5-sonnet-latest" 1000 500 = 0.0105 ∧
    estimateCostUSD "gpt-4o" 123 456 = 0 :=
  ⟨estimateCostUSD_sonnet_and_unknown.1,
   estimateCostUSD_sonnet_and_unknown.2 "gpt-4o" (by decide) 123 456⟩

/-- C3: for every positive amount, the supply→total conversion yields
`total = supply + supply*0.1`, feeding that total back through the
total→supply conversion yields `round(supply)` (exact recovery up to the
rounding the handler applies), and that recovered value is within 1/2 of
the original amount. -/
theorem vat_calculator_roundtrip (a : ℚ) (h : 0 < a) :
    vat_calculator "supply" (some a) = .ok a (a * 0.1) (a + a * 0.1) ∧
    vat_calculator "total" (some (a + a * 0.1)) =
      .ok ((round a : ℤ) : ℚ) ((a + a * 0.1) - ((round a : ℤ) : ℚ))
        (a + a * 0.1) ∧
    |((round a : ℤ) : ℚ) - a| ≤ 1/2 := by
  have hne : ¬ a ≤ 0 := not_le.mpr h
  have htot : ¬ (a + a * 0.1) ≤ 0 := by
    push_neg
    nlinarith
  have hdiv : (a + a * 0.1) / 1.1 = a := by ring
  refine ⟨?_, ?_, ?_⟩
  · simp [vat_calculator, hne]
  · simp [vat_calculator, htot, hdiv]
  · rw [abs_sub_comm]
    exact abs_sub_round a

/-- Witness for C3 at supply 10,000: total 11,000, recovered supply
10,000. -/
theorem vat_calculator_roundtrip_witness :
    vat_calculator "supply" (some 10000) = .ok 10000 1000 11000 ∧
    vat_calculator "total" (some 11000) = .ok 10000 1000 11000 := by
  obtain ⟨h1, h2, -⟩ := vat_calculator_roundtrip 10000 (by norm_num)
  norm_num [round_eq] at h1 h2
  exact ⟨h1, h2⟩

/-- C7: for every positive average monthly salary (and valid years/months),
a total-service computation of exactly 364 days returns the explanatory
not-eligible message, and exactly 365 days returns a payout equal to the
average monthly salary, since `(a/30*30)*(365/365) = a`. -/
theorem retirement_pay_threshold (a y m : ℚ) (ha : 0 < a) (hy : 0 ≤ y) :
    (y * 365 + ((round (m * 30.44) : ℤ) : ℚ) = 364 →
      retirement_pay (some a) (some y) (some m) = .notEligible 364) ∧
    (y * 365 + ((round (m * 30.44) : ℤ) : ℚ) = 365 →
      retirement_pay (some a) (some y) (some m) = .paid 365 (a / 30) a) := by
  have hna : ¬ a ≤ 0 := not_le.mpr ha
  have hny : ¬ y < 0 := not_lt.mpr hy
  constructor
  · intro h364
    simp only [retirement_pay, Option.getD_some, hna, if_false, hny, h364]
    norm_num
  · intro h365
    simp only [retirement_pay, Option.getD_some, hna, if_false, hny, h365]
    rw [if_neg (by norm_num)]
    have hpay : (a / 30 * 30) * ((365 : ℚ) / 365) = a := by ring
    rw [hpay]

/-- Witness for C7: one year exactly (365 days) pays the full average
salary; 364/365 of a year (364 days) is not eligible. -/
theorem retirement_pay_threshold_witness :
    retirement_pay (some 100) (some 1) (some 0) = .paid 365 (100 / 30) 100 ∧
    retirement_pay (some 100) (some (364/365)) (some 0) =
      .notEligible 364 := by
  constructor
  · exact (retirement_pay_threshold 100 1 0 (by norm_num) (by norm_num)).2
      (by norm_num [round_eq])
  · exact (retirement_pay_threshold 100 (364/365) 0 (by norm_num)
      (by norm_num)).1 (by norm_num [round_eq])

/-- Substring containment survives lower-casing when the pattern is already
lower case. -/
theorem strContains_strToLower (s pat : String)
    (hpat : pat.data.map Char.toLower = pat.data)
    (h : strContains s pat = true) :
    strContains (strToLower s) pat = true := by
  have h' : pat.data <:+: s.data := of_decide_eq_true h
  obtain ⟨u, v, huv⟩ := h'
  apply decide_eq_true
  show pat.data <:+: s.data.map Char.toLower
  rw [← hpat]
  exact ⟨u.map Char.toLower, v.map Char.toLower, by rw [← huv]; simp⟩

/-- A suffix is in particular a substring. -/
theorem strContains_of_strEndsWith (s pat : String)
    (h : strEndsWith s pat = true) : strContains s pat = true := by
  have h' : pat.data <:+ s.data := of_decide_eq_true h
  obtain ⟨t, ht⟩ := h'
  exact decide_eq_true ⟨t, [], by simp [ht]⟩

/-- Every list element is a substring of the space-joined list. -/
theorem data_infix_joinSpace {a : String} :
    ∀ {xs : List String}, a ∈ xs → a.data <:+: (joinSpace xs).data := by
  intro xs
  induction xs with
  | nil => intro h; cases h
  | cons x xs ih =>
    intro h
    cases xs with
    | nil =>
      have hax : a = x := by simpa using h
      subst hax
      exact ⟨[], [], by simp [joinSpace]⟩
    | cons y ys =>
      rcases List.mem_cons.mp h with rfl | hmem
      · refine ⟨[], (" " ++ joinSpace (y :: ys)).data, ?_⟩
        simp [joinSpace]
      · obtain ⟨u, v, huv⟩ := ih hmem
        refine ⟨(x ++ " ").data ++ u, v, ?_⟩
        simp only [joinSpace, List.append_assoc, String.data_append]
        rw [← huv]
        simp

/-- An argument ending in ".py" makes the lower-cased space-joined argument
list contain ".py". -/
theorem strContains_joinSpace_lower_of_endsWith {a : String}
    {xs : List String} (hmem : a ∈ xs) (h : strEndsWith a ".py" = true) :
    strContains (strToLower (joinSpace xs)) ".py" = true := by
  have h1 : ".py".data <:+ a.data := of_decide_eq_true h
  obtain ⟨t, ht⟩ := h1
  obtain ⟨u, v, huv⟩ := data_infix_joinSpace hmem
  have h2 : ".py".data <:+: (joinSpace xs).data := by
    refine ⟨u ++ t, v, ?_⟩
    rw [← huv, ← ht]
    simp
  exact strContains_strToLower (joinSpace xs) ".py" (by decide)
    (decide_eq_true h2)

/-- C8: a command containing "npx" or "node" is always classified "npm";
and whenever the entry is not classified "npm", a command containing
"python" or an argument ending in ".py" is classified "python". -/
theorem detectServerType_npm_python (server : MCPServer) :
    ((strContains server.command "npx" = true ∨
        strContains server.command "node" = true) →
      detectServerType server = .npm) ∧
    ((strContains server.command "python" = true ∨
        ∃ a ∈ server.args, strEndsWith a ".py" = true) →
      detectServerType server ≠ .npm →
      detectServerType server = .python) := by
  constructor
  · rintro (h | h)
    · have hc := strContains_strToLower server.command "npx" (by decide) h
      simp [detectServerType, hc]
    · have hc := strContains_strToLower server.command "node" (by decide) h
      simp [detectServerType, hc]
  · intro h hne
    cases hc : (strContains (strToLower server.command) "npx" ||
        strContains (strToLower server.command) "node" ||
        strContains (strToLower (joinSpace server.args)) "npx") with
    | true => exact absurd (by simp [detectServerType, hc]) hne
    | false =>
      have hc2 : (strContains (strToLower server.command) "python" ||
          strContains (strToLower (joinSpace server.args)) ".py") = true := by
        rcases h with h | ⟨a, hmem, ha⟩
        · simp [strContains_strToLower server.command "python" (by decide) h]
        · simp [strContains_joinSpace_lower_of_endsWith hmem ha]
      simp [detectServerType, hc, hc2]

/-- Witness for C8: `npx` with a scoped package argument is "npm"; `python`
with a ".py" argument is "python". -/
theorem detectServerType_npm_python_witness :
    detectServerType srvNpx = .npm ∧ detectServerType srvPy = .python :=
  ⟨(detectServerType_npm_python srvNpx).1 (Or.inl (by decide)),
   (detectServerType_npm_python srvPy).2
     (Or.inr ⟨"server.py", by decide, by decide⟩) (by decide)⟩

/-- C4 as stated is false: the source never redacts arguments containing
"secret" (arguments are only tested against "api"/"token"/"key",
case-sensitively) and never redacts environment values whose name contains
"api" (env names are only tested against "key"/"token"/"secret").  On
`cfgSecretApi` the claim demands both values be replaced by the marker,
yet `sanitizeMCPConfig` returns the config unchanged. -/
theorem sanitizeMCPConfig_claim_counterexample :
    strContains "secret" "secret" = true ∧
    strContains (strToLower "API_URL") "api" = true ∧
    sanitizeMCPConfig cfgSecretApi = cfgSecretApi ∧
    "secret" ≠ REDACTED ∧ ("http://x" : String) ≠ REDACTED := by decide

/-- C4 (amended): `sanitizeMCPConfig` keeps every server at its position
under its name and replaces with the redaction marker exactly the
arguments containing "api", "token" or "key" (case-sensitively; "secret"
is not checked for arguments) and the environment values whose variable
name contains "key", "token" or "secret" case-insensitively ("api" is not
checked for environment names); all other argument and environment values
are returned unchanged. -/
theorem sanitizeMCPConfig_redaction (cfg : MCPConfig) (i : ℕ) :
    ((sanitizeMCPConfig cfg).mcpServers[i]?).map Prod.fst =
      (cfg.mcpServers[i]?).map Prod.fst ∧
    ∀ name server, cfg.mcpServers[i]? = some (name, server) →
      (sanitizeMCPConfig cfg).mcpServers[i]? =
        some (name, sanitizeServer server) ∧
      (sanitizeServer server).command = server.command ∧
      (∀ (j : ℕ) a, server.args[j]? = some a →
        (sanitizeServer server).args[j]? = some
          (if strContains a "api" || strContains a "token" ||
              strContains a "key"
           then REDACTED else a)) ∧
      (server.env = none → (sanitizeServer server).env = none) ∧
      (∀ e, server.env = some e →
        ∃ e', (sanitizeServer server).env = some e' ∧
          ∀ (j : ℕ) k v, e[j]? = some (k, v) →
            e'[j]? = some (k,
              if strContains (strToLower k) "key" ||
                 strContains (strToLower k) "token" ||
                 strContains (strToLower k) "secret"
              then REDACTED else v)) := by
  constructor
  · cases hi : cfg.mcpServers[i]? with
    | none => simp [sanitizeMCPConfig, List.getElem?_map, hi]
    | some p => simp [sanitizeMCPConfig, List.getElem?_map, hi]
  · intro name server h
    refine ⟨?_, rfl, ?_, ?_, ?_⟩
    · simp [sanitizeMCPConfig, List.getElem?_map, h]
    · intro j a ha
      simp [sanitizeServer, List.getElem?_map, ha, sanitizeArg]
    · intro he
      simp [sanitizeServer, he]
    · intro e he
      refine ⟨e.map sanitizeEnvEntry, by simp [sanitizeServer, he], ?_⟩
      intro j k v hj
      simp [List.getElem?_map, hj, sanitizeEnvEntry]

/-- Witness for C4 (amended) at `cfgMixed`: the server survives under its
name and the "--api-key" argument is processed by the redaction rule. -/
theorem sanitizeMCPConfig_redaction_witness :
    (sanitizeMCPConfig cfgMixed).mcpServers[0]? =
      some ("s", sanitizeServer ⟨"node", ["--api-key", "plain"],
        some [("GITHUB_TOKEN", "t"), ("HOME", "h")]⟩) ∧
    (sanitizeServer (⟨"node", ["--api-key", "plain"],
        some [("GITHUB_TOKEN", "t"), ("HOME", "h")]⟩ : MCPServer)).args[0]? =
      some (if strContains "--api-key" "api" ||
          strContains "--api-key" "token" || strContains "--api-key" "key"
        then REDACTED else "--api-key") := by
  obtain ⟨-, h⟩ := sanitizeMCPConfig_redaction cfgMixed 0
  obtain ⟨h0, -, hargs, -, -⟩ := h "s"
    ⟨"node", ["--api-key", "plain"],
      some [("GITHUB_TOKEN", "t"), ("HOME", "h")]⟩ rfl
  exact ⟨h0, hargs 0 "--api-key" rfl⟩

/-- C10: `sanitizeMCPConfig` only rewrites individual argument strings and
environment values (possibly to the redaction marker): the server-name
list, each command, each argument-list length and each environment key
list are preserved, and an absent environment block stays absent. -/
theorem sanitizeMCPConfig_frame (cfg : MCPConfig) :
    (sanitizeMCPConfig cfg).mcpServers.map Prod.fst =
      cfg.mcpServers.map Prod.fst ∧
    ∀ name server, (name, server) ∈ cfg.mcpServers →
      (name, sanitizeServer server) ∈ (sanitizeMCPConfig cfg).mcpServers ∧
      (sanitizeServer server).command = server.command ∧
      (sanitizeServer server).args.length = server.args.length ∧
      Option.map (List.map Prod.fst) (sanitizeServer server).env =
        Option.map (List.map Prod.fst) server.env ∧
      (∀ j : ℕ, (sanitizeServer server).args[j]? = server.args[j]? ∨
        (sanitizeServer server).args[j]? = some REDACTED) ∧
      (∀ e, server.env = some e →
        ∃ e', (sanitizeServer server).env = some e' ∧
          e'.map Prod.fst = e.map Prod.fst ∧
          ∀ j : ℕ, (e'[j]?).map Prod.snd = (e[j]?).map Prod.snd ∨
            (e'[j]?).map Prod.snd = some REDACTED) := by
  constructor
  · simp [sanitizeMCPConfig, List.map_map, Function.comp]
  · intro name server hmem
    refine ⟨?_, rfl, ?_, ?_, ?_, ?_⟩
    · exact List.mem_map_of_mem _ hmem
    · simp [sanitizeServer]
    · cases he : server.env with
      | none => simp [sanitizeServer, he]
      | some e =>
        simp [sanitizeServer, he, List.map_map, Function.comp,
          sanitizeEnvEntry]
    · intro j
      cases ha : server.args[j]? with
      | none => left; simp [sanitizeServer, List.getElem?_map, ha]
      | some a =>
        cases hcond : (strContains a "api" || strContains a "token" ||
            strContains a "key") with
        | true =>
          right
          simp [sanitizeServer, List.getElem?_map, ha, sanitizeArg, hcond]
        | false =>
          left
          simp [sanitizeServer, List.getElem?_map, ha, sanitizeArg, hcond]
    · intro e he
      refine ⟨e.map sanitizeEnvEntry, by simp [sanitizeServer, he], ?_, ?_⟩
      · simp [List.map_map, Function.comp, sanitizeEnvEntry]
      · intro j
        cases hj : e[j]? with
        | none => left; simp [List.getElem?_map, hj]
        | some kv =>
          cases hcond : (strContains (strToLower kv.1) "key" ||
              strContains (strToLower kv.1) "token" ||
              strContains (strToLower kv.1) "secret") with
          | true =>
            right
            simp [List.getElem?_map, hj, sanitizeEnvEntry, hcond]
          | false =>
            left
            simp [List.getElem?_map, hj, sanitizeEnvEntry, hcond]

/-- Witness for C10 at `cfgFrame`. -/
theorem sanitizeMCPConfig_frame_witness :
    (sanitizeMCPConfig cfgFrame).mcpServers.map Prod.fst =
      cfgFrame.mcpServers.map Prod.fst ∧
    ("w", sanitizeServer ⟨"node", ["token-arg", "safe"],
        some [("MY_SECRET", "v"), ("PATH", "p")]⟩) ∈
      (sanitizeMCPConfig cfgFrame).mcpServers ∧
    (sanitizeServer (⟨"node", ["token-arg", "safe"],
        some [("MY_SECRET", "v"), ("PATH", "p")]⟩ : MCPServer)).args.length =
      (["token-arg", "safe"] : List String).length := by
  have h := sanitizeMCPConfig_frame cfgFrame
  obtain ⟨hmem, -, hlen, -, -, -⟩ := h.2 "w"
    ⟨"node", ["token-arg", "safe"],
      some [("MY_SECRET", "v"), ("PATH", "p")]⟩ (by decide)
  exact ⟨h.1, hmem, hlen⟩

/-- C5 is false as stated: when both timestamps parse to the same instant
the source proceeds to issue the request (it only rejects a start strictly
after the end), while the claim requires rejection whenever the start does
not strictly precede the end. -/
theorem fetchAnthropicUsage_equal_counterexample :
    fetchAnthropicUsage (fun _ => some 0) "2024-01-01" "2024-01-01"
      (some "k") = .request 0 0 := rfl

/-- C5 (amended): `fetchAnthropicUsage` rejects, before issuing any
request, an unparseable start date, an unparseable end date, and a start
strictly after the end; with both dates parseable and start ≤ end
(equality included) it proceeds to the request. -/
theorem fetchAnthropicUsage_validation (parseDate : String → Option ℤ)
    (startingAt endingAt key : String) :
    (parseDate startingAt = none →
      fetchAnthropicUsage parseDate startingAt endingAt (some key) =
        .errInvalidStart startingAt) ∧
    (∀ s : ℤ, parseDate startingAt = some s → parseDate endingAt = none →
      fetchAnthropicUsage parseDate startingAt endingAt (some key) =
        .errInvalidEnd endingAt) ∧
    (∀ s e : ℤ, parseDate startingAt = some s →
      parseDate endingAt = some e → s > e →
      fetchAnthropicUsage parseDate startingAt endingAt (some key) =
        .errStartAfterEnd) ∧
    (∀ s e : ℤ, parseDate startingAt = some s →
      parseDate endingAt = some e → s ≤ e →
      fetchAnthropicUsage parseDate startingAt endingAt (some key) =
        .request s e) := by
  refine ⟨?_, ?_, ?_, ?_⟩
  · intro h
    simp [fetchAnthropicUsage, h]
  · intro s hs he
    simp [fetchAnthropicUsage, hs, he]
  · intro s e hs he hgt
    simp only [fetchAnthropicUsage, hs, he]
    rw [if_pos hgt]
  · intro s e hs he hle
    simp only [fetchAnthropicUsage, hs, he]
    rw [if_neg (not_lt.mpr hle)]

/-- Witness for C5 (amended) on the toy parser: a valid strictly ordered
pair reaches the request, an unparseable start is rejected. -/
theorem fetchAnthropicUsage_validation_witness :
    fetchAnthropicUsage parseDateToy "A" "B" (some "k") = .request 1 5 ∧
    fetchAnthropicUsage parseDateToy "C" "B" (some "k") =
      .errInvalidStart "C" :=
  ⟨(fetchAnthropicUsage_validation parseDateToy "A" "B" "k").2.2.2 1 5
     (by decide) (by decide) (by decide),
   (fetchAnthropicUsage_validation parseDateToy "C" "B" "k").1 (by decide)⟩

/-- C6: with auto-update enabled, a first `runAutoUpdate` with no recorded
check performs the single registry lookup and records the check time; a
second call less than `checkInterval` hours later performs no lookup and
reports the recent-check skip; together exactly one lookup happens. -/
theorem runAutoUpdate_throttles (config : UpdateConfig) (now₁ now₂ : ℤ)
    (reg₁ reg₂ : VersionInfo) (hen : config.enabled = true)
    (hlt : (now₂ - now₁ : ℚ) < config.checkInterval * 60 * 60 * 1000) :
    runAutoUpdate config none now₁ reg₁ = (some now₁, .checked reg₁) ∧
    runAutoUpdate config (some now₁) now₂ reg₂ =
      (some now₁, .skippedRecent) ∧
    registryLookups (runAutoUpdate config none now₁ reg₁).2 +
      registryLookups (runAutoUpdate config (some now₁) now₂ reg₂).2 = 1 := by
  have h1 : runAutoUpdate config none now₁ reg₁ =
      (some now₁, .checked reg₁) := by
    simp [runAutoUpdate, shouldCheckForUpdates, hen]
  have hsk : shouldCheckForUpdates config (some now₁) now₂ = false := by
    simp only [shouldCheckForUpdates, hen]
    simp
    exact hlt
  have h2 : runAutoUpdate config (some now₁) now₂ reg₂ =
      (some now₁, .skippedRecent) := by
    simp [runAutoUpdate, hen, hsk]
  refine ⟨h1, h2, ?_⟩
  rw [h1, h2]
  rfl

/-- Witness for C6 with the default configuration: first call at epoch 0
checks, second call one second later is skipped. -/
theorem runAutoUpdate_throttles_witness :
    runAutoUpdate DEFAULT_CONFIG none 0 ⟨"1.0.0", "1.0.0", false⟩ =
      (some 0, .checked ⟨"1.0.0", "1.0.0", false⟩) ∧
    runAutoUpdate DEFAULT_CONFIG (some 0) 1000 ⟨"1.0.0", "1.1.0", true⟩ =
      (some 0, .skippedRecent) := by
  obtain ⟨h1, h2, -⟩ := runAutoUpdate_throttles DEFAULT_CONFIG 0 1000
    ⟨"1.0.0", "1.0.0", false⟩ ⟨"1.0.0", "1.1.0", true⟩ rfl
    (by norm_num [DEFAULT_CONFIG])
  exact ⟨h1, h2⟩

/-- C1: for every JSON-serializable value, every password of at least 16
characters, and every salt/IV draw, decrypting the envelope with the same
password returns the value, and decrypting it with any different password
fails with the integrity (authentication) error instead of returning
corrupted data. -/
theorem encryptJSON_decryptJSON_roundtrip (v : Json) (password : String)
    (salt iv : ℕ) (hlen : 16 ≤ password.length) :
    decryptJSON (encryptJSON v password salt iv) password = .ok v ∧
    ∀ password', password' ≠ password →
      decryptJSON (encryptJSON v password salt iv) password' =
        .error .integrityError := by
  constructor
  · simp [decryptJSON, encryptJSON, encrypt, decrypt, ALGORITHM, deriveKey]
  · intro p' hne
    simp [decryptJSON, encryptJSON, encrypt, decrypt, ALGORITHM, deriveKey,
      hne, Ne.symm hne]

/-- Witness for C1: a 16-character password round-trips a string value,
and a different password hits the integrity error. -/
theorem encryptJSON_decryptJSON_roundtrip_witness :
    decryptJSON (encryptJSON (.str "hello") "abcdefghijklmnop" 0 1)
      "abcdefghijklmnop" = .ok (.str "hello") ∧
    decryptJSON (encryptJSON (.str "hello") "abcdefghijklmnop" 0 1)
      "wrong-password-xx" = .error .integrityError := by
  have h := encryptJSON_decryptJSON_roundtrip (.str "hello")
    "abcdefghijklmnop" 0 1 (by decide)
  exact ⟨h.1, h.2 "wrong-password-xx" (by decide)⟩

/-- C9: an envelope whose version is not "1.0" or whose algorithm is not
"aes-256-gcm" is rejected with an unsupported-format error — the version
error (checked first) or the algorithm error — without attempting
decryption. -/
theorem decryptJSON_rejects_unknown_format (envelope : EncryptedEnvelope)
    (password : String)
    (h : envelope.version ≠ "1.0" ∨ envelope.algorithm ≠ ALGORITHM) :
    isUnsupportedFormat (decryptJSON envelope password) = true ∧
    (decryptJSON envelope password =
        .error (.unsupportedVersion envelope.version) ∨
      decryptJSON envelope password =
        .error (.unsupportedAlgorithm envelope.algorithm)) := by
  by_cases hv : envelope.version = "1.0"
  · have ha : envelope.algorithm ≠ ALGORITHM := by
      rcases h with h | h
      · exact absurd hv h
      · exact h
    refine ⟨?_, Or.inr ?_⟩
    · simp [decryptJSON, isUnsupportedFormat, hv, ha]
    · simp [decryptJSON, hv, ha]
  · refine ⟨?_, Or.inl ?_⟩
    · simp [decryptJSON, isUnsupportedFormat, hv]
    · simp [decryptJSON, hv]

/-- Witness for C9 on a version-"2.0" envelope. -/
theorem decryptJSON_rejects_unknown_format_witness :
    isUnsupportedFormat (decryptJSON envBadVersion "pw") = true :=
  (decryptJSON_rejects_unknown_format envBadVersion "pw"
    (Or.inl (by decide))).1
